import Mathlib

/-!
# Verification of worker-lib's marshaling protocol and pool scheduler

A shallow embedding of the core of `worker-lib` (src/index.ts, src/pool.ts,
src/node.ts): the JS value model, the marshal/unmarshal pair
(`transformArgs` / `resolveArgs`), the per-side callback registry, the
per-request message handlers of both sides, the startup handshake and the
worker pool operations, together with theorems about them.
-/

namespace WorkerLib

/-- The sentinel key used to mark a marshaled callable on the wire
(`const FUNCTION_PLACEHOLDER = "__worker_lib_function__"`). -/
def FUNCTION_PLACEHOLDER : String := "__worker_lib_function__"

mutual

/-- A JavaScript value, as the marshaler walks it: scalars, plain records,
arrays, raw `ArrayBuffer`s, typed views over buffers, and callables.
Callables are identified by an id (`fn`); invocation proxies created by
`createProxy` are callables too but carry their own identity (`proxy`),
matching JS where each proxy closure is a distinct function object. -/
inductive JSValue where
  | num (n : Int)
  | str (s : String)
  | bool (b : Bool)
  | null
  | undef
  | buffer (bytes : List Nat)
  | view (bytes : List Nat)
  | fn (id : Nat)
  | proxy (pid : Nat)
  | arr (elems : JSList)
  | obj (fields : JSFields)
deriving DecidableEq

/-- A JS array's elements. -/
inductive JSList where
  | nil
  | cons (head : JSValue) (tail : JSList)
deriving DecidableEq

/-- A JS plain record's fields, in property order. -/
inductive JSFields where
  | nil
  | cons (key : String) (val : JSValue) (tail : JSFields)
deriving DecidableEq

end

/-- The JS property-presence test `key in fields` on a plain record. -/
def fieldsHasKey (k : String) : JSFields → Bool
  | .nil => false
  | .cons key _ tail => key == k || fieldsHasKey k tail

/-- The JS property access `fields[k]` on a plain record (first occurrence). -/
def fieldsGet (k : String) : JSFields → Option JSValue
  | .nil => none
  | .cons key v tail => if key == k then some v else fieldsGet k tail

/-- The guard `isPlaceholder` from src/index.ts:46-47:
`v && typeof v === "object" && FUNCTION_PLACEHOLDER in v`.  Of the values in
the model, only plain records can carry the sentinel key, and the test is
pure key presence — neither the value under the key nor any other field is
inspected. -/
def isPlaceholder : JSValue → Bool
  | .obj fields => fieldsHasKey FUNCTION_PLACEHOLDER fields
  | _ => false

mutual

/-- JS `String()` coercion, used by the template literal that builds
composite keys (and by `String(error)` in the worker's catch block). -/
def jsString : JSValue → String
  | .num n => toString n
  | .str s => s
  | .bool b => if b then "true" else "false"
  | .null => "null"
  | .undef => "undefined"
  | .buffer _ => "[object ArrayBuffer]"
  | .view bytes => String.intercalate "," (bytes.map toString)
  | .fn id => "function:" ++ toString id
  | .proxy pid => "function:proxy:" ++ toString pid
  | .arr elems => String.intercalate "," (jsStringPieces elems)
  | .obj _ => "[object Object]"

/-- Pieces of `Array.prototype.toString`: `null`/`undefined` elements print
as the empty string, the rest via `String()`. -/
def jsStringPieces : JSList → List String
  | .nil => []
  | .cons JSValue.null t => "" :: jsStringPieces t
  | .cons JSValue.undef t => "" :: jsStringPieces t
  | .cons h t => jsString h :: jsStringPieces t

end

/-- A per-side callback registry: the two `Map<string, Function>`s
(`callbacks` and `callbackProxies`) of src/index.ts:49-50 (module-scoped on
the main side, closure-scoped in `initWorker` and in `createRegistry` of
pool.ts).  Proxies are function objects; we track each by the identity
number `nextProxy` assigned at creation.  `nextToken` deterministically
models the stream of `Math.random().toString(36).slice(2)` tokens. -/
structure Registry where
  callbacks : List (String × JSValue)
  callbackProxies : List (String × Nat)
  nextToken : Nat
  nextProxy : Nat
deriving DecidableEq

/-- A fresh registry: both maps empty. -/
def Registry.empty : Registry := ⟨[], [], 0, 0⟩

/-- The token minted for one `registerCallback` call, modelling
`Math.random().toString(36).slice(2)` (an arbitrary colon-free string). -/
def tokenString (n : Nat) : String := "t" ++ toString n

/-- The composite-key prefix for one request: the template-literal prefix
of `"{requestId}:{token}"` keys. -/
def requestKeyHead (requestId : Int) : String := toString requestId ++ ":"

/-- The function `registerCallback` from src/index.ts:52-56: mint
`id = "{requestId}:{random}"`, store the callable under `id` in
`callbacks`, return `id`. -/
def registerCallback (requestId : Int) (f : JSValue) (st : Registry) :
    String × Registry :=
  let id := requestKeyHead requestId ++ tokenString st.nextToken
  (id, { st with callbacks := st.callbacks ++ [(id, f)],
                 nextToken := st.nextToken + 1 })

/-- JS `s.startsWith(pre)`: the character sequence of `s` begins with that
of `pre`. -/
def strStartsWith (s pre : String) : Bool := pre.data.isPrefixOf s.data

/-- The function `clearCallbacks` from src/index.ts:58-69: delete from both maps every
entry whose key starts with `"{requestId}:"`. -/
def clearCallbacks (requestId : Int) (st : Registry) : Registry :=
  { st with
    callbacks := st.callbacks.filter
      (fun kv => !(strStartsWith kv.1 (requestKeyHead requestId))),
    callbackProxies := st.callbackProxies.filter
      (fun kv => !(strStartsWith kv.1 (requestKeyHead requestId))) }

/-- The function `createProxy` from src/index.ts:157-190 (and, identically keyed,
src/index.ts:475-512 and pool.ts:23-53 / 221-253): build
`key = "{requestId}:{callbackId}"`; if `callbackProxies` already holds the
key, return the stored proxy unchanged; otherwise create a fresh proxy
function, store it under the key and return it. -/
def createProxy (requestId : Int) (callbackId : String) (st : Registry) :
    Nat × Registry :=
  let key := requestKeyHead requestId ++ callbackId
  match st.callbackProxies.lookup key with
  | some p => (p, st)
  | none =>
      let p := st.nextProxy
      (p, { st with callbackProxies := st.callbackProxies ++ [(key, p)],
                    nextProxy := p + 1 })

mutual

/-- The marshaler `transformArgs` from src/index.ts:95-113: callables become
`{[FUNCTION_PLACEHOLDER]: registerCallback(requestId, fn)}` placeholders,
buffers and views pass through, arrays and plain records are rebuilt
element-wise and field-wise, everything else passes through.  The registry maps
are shared mutable state, threaded left to right. -/
def transformArgs (requestId : Int) (args : JSValue) (st : Registry) :
    JSValue × Registry :=
  match args with
  | .fn f =>
      let (id, st') := registerCallback requestId (.fn f) st
      (.obj (.cons FUNCTION_PLACEHOLDER (.str id) .nil), st')
  | .proxy p =>
      let (id, st') := registerCallback requestId (.proxy p) st
      (.obj (.cons FUNCTION_PLACEHOLDER (.str id) .nil), st')
  | .view b => (.view b, st)
  | .buffer b => (.buffer b, st)
  | .arr elems =>
      let (elems', st') := transformArgsList requestId elems st
      (.arr elems', st')
  | .obj fields =>
      let (fields', st') := transformArgsFields requestId fields st
      (.obj fields', st')
  | other => (other, st)

/-- The element walk `args.map((v) => transformArgs(requestId, v))`. -/
def transformArgsList (requestId : Int) (elems : JSList) (st : Registry) :
    JSList × Registry :=
  match elems with
  | .nil => (.nil, st)
  | .cons h t =>
      let (h', st1) := transformArgs requestId h st
      let (t', st2) := transformArgsList requestId t st1
      (.cons h' t', st2)

/-- The field walk `for (const key in args) result[key] = transformArgs(requestId, args[key])`. -/
def transformArgsFields (requestId : Int) (fields : JSFields) (st : Registry) :
    JSFields × Registry :=
  match fields with
  | .nil => (.nil, st)
  | .cons k v t =>
      let (v', st1) := transformArgs requestId v st
      let (t', st2) := transformArgsFields requestId t st1
      (.cons k v' t', st2)

end

mutual

/-- The unmarshaler `resolveArgs` from src/index.ts:115-134: a record carrying
the sentinel key becomes `createProxy(args[FUNCTION_PLACEHOLDER])` (the
carried token coerced to a string by the key template literal), arrays and
remaining plain records are rebuilt recursively, everything else passes
through.  The proxy map is threaded for `createProxy`'s memoization. -/
def resolveArgs (requestId : Int) (args : JSValue) (st : Registry) :
    JSValue × Registry :=
  match args with
  | .obj fields =>
      if fieldsHasKey FUNCTION_PLACEHOLDER fields then
        let tok := (fieldsGet FUNCTION_PLACEHOLDER fields).getD .undef
        let (p, st') := createProxy requestId (jsString tok) st
        (.proxy p, st')
      else
        let (fields', st') := resolveArgsFields requestId fields st
        (.obj fields', st')
  | .arr elems =>
      let (elems', st') := resolveArgsList requestId elems st
      (.arr elems', st')
  | other => (other, st)

/-- The element walk `args.map((v) => resolveArgs(requestId, v, createProxy))`. -/
def resolveArgsList (requestId : Int) (elems : JSList) (st : Registry) :
    JSList × Registry :=
  match elems with
  | .nil => (.nil, st)
  | .cons h t =>
      let (h', st1) := resolveArgs requestId h st
      let (t', st2) := resolveArgsList requestId t st1
      (.cons h' t', st2)

/-- The field walk `for (const key in args) result[key] = resolveArgs(requestId, args[key], createProxy)`. -/
def resolveArgsFields (requestId : Int) (fields : JSFields) (st : Registry) :
    JSFields × Registry :=
  match fields with
  | .nil => (.nil, st)
  | .cons k v t =>
      let (v', st1) := resolveArgs requestId v st
      let (t', st2) := resolveArgsFields requestId t st1
      (.cons k v' t', st2)

end

mutual

/-- Holds (`true`) iff the value contains no callable anywhere (no function, no
proxy): "containing no callables" in the round-trip law. -/
def funcFree : JSValue → Bool
  | .fn _ => false
  | .proxy _ => false
  | .arr elems => funcFreeList elems
  | .obj fields => funcFreeFields fields
  | _ => true

/-- The predicate `funcFree` over an array's elements. -/
def funcFreeList : JSList → Bool
  | .nil => true
  | .cons h t => funcFree h && funcFreeList t

/-- The predicate `funcFree` over a record's field values. -/
def funcFreeFields : JSFields → Bool
  | .nil => true
  | .cons _ v t => funcFree v && funcFreeFields t

end

mutual

/-- Holds (`true`) iff no record anywhere in the value carries the sentinel key
`FUNCTION_PLACEHOLDER` (so `resolveArgs` never takes the placeholder
branch on it). -/
def placeholderFree : JSValue → Bool
  | .arr elems => placeholderFreeList elems
  | .obj fields =>
      !(fieldsHasKey FUNCTION_PLACEHOLDER fields) && placeholderFreeFields fields
  | _ => true

/-- The predicate `placeholderFree` over an array's elements. -/
def placeholderFreeList : JSList → Bool
  | .nil => true
  | .cons h t => placeholderFree h && placeholderFreeList t

/-- The predicate `placeholderFree` over a record's field values. -/
def placeholderFreeFields : JSFields → Bool
  | .nil => true
  | .cons _ v t => placeholderFree v && placeholderFreeFields t

end

/-- The fields a message payload may carry, each optional so that partially
formed messages (missing `id`, missing `result`, ...) are representable. -/
structure PayloadV where
  id : Option JSValue
  name : Option String
  args : Option JSValue
  result : Option JSValue
  error : Option JSValue
  callbackId : Option JSValue
  callId : Option JSValue
deriving DecidableEq

/-- A message on the channel: either untagged data (such as the `"ready"`
string, or anything else a handler must skip) or a `{type, payload}` record. -/
inductive WireMsg where
  | raw (v : JSValue)
  | tagged (ty : String) (payload : Option PayloadV)
deriving DecidableEq

/-- A `result` message: `{type: "result", payload: {id, result}}`. -/
def resultMsg (id : Int) (result : JSValue) : WireMsg :=
  .tagged "result" (some ⟨some (.num id), none, none, some result, none, none, none⟩)

/-- An `error` message: `{type: "error", payload: {id, error}}`. -/
def errorMsg (id : Int) (error : JSValue) : WireMsg :=
  .tagged "error" (some ⟨some (.num id), none, none, none, some error, none, none⟩)

/-- A `function` message: `{type: "function", payload: {id, name, args}}`. -/
def functionMsg (id : Int) (name : String) (args : JSValue) : WireMsg :=
  .tagged "function" (some ⟨some (.num id), some name, some args, none, none, none, none⟩)

/-- A `callback_call` message:
`{type: "callback_call", payload: {id, callbackId, args, callId}}`. -/
def callbackCallMsg (id : Int) (callbackId : JSValue) (callId : String)
    (args : JSValue) : WireMsg :=
  .tagged "callback_call"
    (some ⟨some (.num id), none, some args, none, none, some callbackId,
           some (.str callId)⟩)

/-- A `callback_result` message: `{type: "callback_result",
payload: {id: callId, result}}` — its `id` carries the call id verbatim. -/
def callbackResultMsg (callId : JSValue) (result : JSValue) : WireMsg :=
  .tagged "callback_result"
    (some ⟨some callId, none, none, some result, none, none, none⟩)

/-- An observable side effect of one handler invocation or setup step, in
source order: posting a message, adding/removing a channel listener,
clearing the per-request registry entries, settling the caller's promise,
or writing to the diagnostic sink (`console.error`). -/
inductive Action where
  | post (msg : WireMsg)
  | addListener
  | removeListener
  | clearRegistry (requestId : Int)
  | resolveP (v : JSValue)
  | rejectP (v : JSValue)
  | logError (msg : String) (e : JSValue)
deriving DecidableEq

/-- The lookup `Map.get` on a callback map with a payload-supplied key: JS `Map`
lookup uses SameValueZero, so a non-string key never matches the string
keys minted by `registerCallback`. -/
def lookupCallable (m : List (String × JSValue)) (key : JSValue) :
    Option JSValue :=
  match key with
  | .str s => m.lookup s
  | _ => none

/-- The shared `callback_call` branch (src/index.ts:208-228 on the main
side, src/index.ts:544-563 / pool.ts:70-88, 282-300 on the worker side;
the source duplicates this code verbatim up to the log text): look up the
target callable under the carried `callbackId`; if absent, do nothing.
Otherwise unmarshal the args, invoke the callable (`sem` abstracts the
user callable's body: it either returns a value or raises one); on return,
marshal it and post `callback_result` keyed by the carried `callId`; if the
callable raises, log to `console.error` and post nothing. -/
def handleCallbackCall (sem : JSValue → JSValue → Except JSValue JSValue)
    (logMsg : String) (requestId : Int) (payload : Option PayloadV)
    (st : Registry) : Registry × List Action :=
  let callbackId := (payload.bind (fun p => p.callbackId)).getD .undef
  let callArgs := (payload.bind (fun p => p.args)).getD .undef
  let callId := (payload.bind (fun p => p.callId)).getD .undef
  match lookupCallable st.callbacks callbackId with
  | none => (st, [])
  | some fv =>
      let (resolved, st1) := resolveArgs requestId callArgs st
      match sem fv resolved with
      | .ok result =>
          let (tres, st2) := transformArgs requestId result st1
          (st2, [.post (callbackResultMsg callId tres)])
      | .error e => (st1, [.logError logMsg e])

/-- The per-request `messageHandler` installed by `exec`
(src/index.ts:192-229, identical in pool.ts:55-89): skip non-object data;
skip any message whose `payload?.id` is not strictly equal to this
request's id; on `result`, remove the listener, unmarshal the result,
clear this request's registry entries, and resolve; on `error`, remove the
listener, clear the registry entries, and reject with the carried error;
on `callback_call`, run the shared callback branch.  Returns the updated
registry and the effect trace in source order. -/
def messageHandler (sem : JSValue → JSValue → Except JSValue JSValue)
    (requestId : Int) (msg : WireMsg) (st : Registry) :
    Registry × List Action :=
  match msg with
  | .raw _ => (st, [])
  | .tagged ty payload =>
      if payload.bind (fun p => p.id) ≠ some (.num requestId) then (st, [])
      else if ty = "result" then
        let res := (payload.bind (fun p => p.result)).getD .undef
        let (result, st1) := resolveArgs requestId res st
        (clearCallbacks requestId st1,
         [.removeListener, .clearRegistry requestId, .resolveP result])
      else if ty = "error" then
        (clearCallbacks requestId st,
         [.removeListener, .clearRegistry requestId,
          .rejectP ((payload.bind (fun p => p.error)).getD .undef)])
      else if ty = "callback_call" then
        handleCallbackCall sem "[worker-lib] Callback execution failed:"
          requestId payload st
      else (st, [])

/-- The worker-side listener installed by `initWorker`
(src/index.ts:514-565, pool.ts:255-301): on `function`, look up the named
procedure (silently ignore unknown names), unmarshal the args, invoke the
procedure (`procs name` abstracts its body); on success marshal the result,
post `result`, then clear the request's registry entries; on failure post
`error` carrying `String(error)`, then clear the registry entries.  On
`callback_call`, run the shared callback branch.  The wire types give
`payload.id` as a number; messages whose id is not numeric are modelled as
inert. -/
def workerHandler (procs : String → Option (JSValue → Except JSValue JSValue))
    (sem : JSValue → JSValue → Except JSValue JSValue)
    (msg : WireMsg) (st : Registry) : Registry × List Action :=
  match msg with
  | .raw _ => (st, [])
  | .tagged ty payload =>
      if ty = "function" then
        match payload.bind (fun p => p.id), payload.bind (fun p => p.name) with
        | some (.num id), some name =>
            match procs name with
            | none => (st, [])
            | some proc =>
                let args := (payload.bind (fun p => p.args)).getD .undef
                let (resolvedArgs, st1) := resolveArgs id args st
                match proc resolvedArgs with
                | .ok result =>
                    let (tres, st2) := transformArgs id result st1
                    (clearCallbacks id st2,
                     [.post (resultMsg id tres), .clearRegistry id])
                | .error err =>
                    (clearCallbacks id st1,
                     [.post (errorMsg id (.str (jsString err))), .clearRegistry id])
        | _, _ => (st, [])
      else if ty = "callback_call" then
        match payload.bind (fun p => p.id) with
        | some (.num id) =>
            handleCallbackCall sem "[worker-lib] Worker-side callback failed:"
              id payload st
        | _ => (st, [])
      else (st, [])

/-- The body of an invocation proxy (src/index.ts:160-187): mint a fresh
`callId` (the token stream models `Math.random().toString(36).slice(2)`),
install a transient listener awaiting the matching `callback_result`,
marshal the invocation's arguments, and post `callback_call` carrying
`{id: requestId, callbackId, args, callId}`.  `callbackId` is the token the
proxy captured from its placeholder. -/
def invokeProxy (requestId : Int) (callbackId : String) (callIdTok : Nat)
    (proxyArgs : JSList) (st : Registry) : Registry × List Action :=
  let callId := tokenString callIdTok
  let (targs, st1) := transformArgs requestId (.arr proxyArgs) st
  (st1, [.addListener,
         .post (callbackCallMsg requestId (.str callbackId) callId targs)])

/-- The ready sentinel the worker posts after subscribing: the bare string
`"ready"` (src/index.ts:567, pool.ts:303). -/
def readySentinel : WireMsg := .raw (.str "ready")

/-- The top-level setup effects of `initWorker` (src/index.ts:514-567) in
source order: `worker.addEventListener("message", ...)` then
`worker.postMessage("ready")`.  All other outbound traffic is produced by
the listener in response to inbound messages, so this is the worker's
entire unprompted traffic. -/
def initWorkerSetup : List Action :=
  [.addListener, .post readySentinel]

/-- The state of the browser-side handshake awaiter `init`
(src/index.ts:136-146): whether its listener is still attached, and the
index of the message that resolved it, if any. -/
structure InitState where
  listening : Bool
  resolvedAt : Option Nat
deriving DecidableEq

/-- One delivery to the handshake awaiter's listener: while attached, a
message strictly equal to the string `"ready"` detaches the listener and
resolves; anything else is ignored.  After detaching, deliveries have no
effect. -/
def initHandlerStep (st : InitState) (idx : Nat) (msg : WireMsg) : InitState :=
  if st.listening then
    if msg = readySentinel then ⟨false, some idx⟩ else st
  else st

/-- Deliver a list of messages to the handshake awaiter in order,
numbering them from `i`. -/
def initRunFrom (i : Nat) (st : InitState) : List WireMsg → InitState
  | [] => st
  | m :: rest => initRunFrom (i + 1) (initHandlerStep st i m) rest

/-- The awaiter `init` (src/index.ts:136-146) as a run over the inbound message
sequence: starts listening, unresolved. -/
def initRun (msgs : List WireMsg) : InitState :=
  initRunFrom 0 ⟨true, none⟩ msgs

/-- The node-side `init` (src/node.ts:18-24): `worker.once("message", ...)`
resolves on the first delivered message, whatever it is. -/
def nodeInitResolvedAt (msgs : List WireMsg) : Option Nat :=
  match msgs with
  | [] => none
  | _ :: _ => some 0

/-- One pool slot (src/index.ts:266-271, pool.ts:111-116): an optional
endpoint (tracked by an id) and an optional in-flight resolver (tracked by
an id). -/
structure Slot where
  worker : Option Nat
  resultResolver : Option Nat
deriving DecidableEq

/-- A freshly created slot `{}`: no endpoint, no resolver. -/
def Slot.empty : Slot := ⟨none, none⟩

/-- The pool's state: the slot array, plus the accumulated set of endpoint
ids on which `terminate()` has been called. -/
structure PoolState where
  workers : List Slot
  terminated : List Nat
deriving DecidableEq

/-- The pool operation `setLimit` from src/index.ts:393-398 / pool.ts:198-203:
`workers.forEach((w) => w.worker?.terminate())`, then replace the slot
array with `limit` fresh empty slots. -/
def setLimit (limit : Nat) (st : PoolState) : PoolState :=
  { workers := List.replicate limit Slot.empty,
    terminated := st.terminated ++ st.workers.filterMap (fun s => s.worker) }

/-- Holds (`true`) iff neither registry map holds an entry whose key starts with
this request's composite-key prefix. -/
def noRequestKeys (requestId : Int) (st : Registry) : Bool :=
  st.callbacks.all (fun kv => !(strStartsWith kv.1 (requestKeyHead requestId))) &&
  st.callbackProxies.all (fun kv => !(strStartsWith kv.1 (requestKeyHead requestId)))

/-- The `payload?.id` optional chain on an inbound message: `none` both for
non-record data and for a tagged message without a payload or without an
`id` field. -/
def wireMsgPayloadId : WireMsg → Option JSValue
  | .raw _ => none
  | .tagged _ payload => payload.bind (fun p => p.id)

/-- A sample function-free, placeholder-free argument tree used to evaluate
the round-trip law on a concrete input. -/
def sampleTree : JSValue :=
  .obj (.cons "a" (.num 1)
    (.cons "b" (.obj (.cons "c" (.str "hello") .nil))
      (.cons "d" (.arr (.cons (.num 1) (.cons (.buffer [1, 2, 3])
        (.cons (.view [4, 5]) (.cons .null .nil))))) .nil)))

theorem strStartsWith_append (p s : String) : strStartsWith (p ++ s) p = true := by
  simp [strStartsWith, List.isPrefixOf_iff_prefix]

theorem lookup_append_of_none {α : Type} (l1 l2 : List (String × α)) (k : String)
    (h : l1.lookup k = none) : (l1 ++ l2).lookup k = l2.lookup k := by
  induction l1 with
  | nil => simp
  | cons a t ih =>
      obtain ⟨k1, v1⟩ := a
      simp only [List.lookup, List.cons_append] at h ⊢
      cases hk : (k == k1) with
      | true => simp [hk] at h
      | false => simp only [hk] at h ⊢; exact ih h

theorem lookup_none_of_all_blocked {α : Type} (l : List (String × α))
    (pre key : String)
    (hall : l.all (fun kv => !(strStartsWith kv.1 pre)) = true)
    (hpre : strStartsWith key pre = true) : l.lookup key = none := by
  induction l with
  | nil => rfl
  | cons a t ih =>
      obtain ⟨k1, v1⟩ := a
      simp only [List.all_cons, Bool.and_eq_true] at hall
      simp only [List.lookup]
      cases hk : (key == k1) with
      | true =>
          exfalso
          have : k1 = key := (eq_of_beq hk).symm
          subst this
          rw [hpre] at hall
          simpa using hall.1
      | false => exact ih hall.2

theorem clearCallbacks_noRequestKeys (rid : Int) (st : Registry) :
    noRequestKeys rid (clearCallbacks rid st) = true := by
  simp only [noRequestKeys, clearCallbacks, Bool.and_eq_true, List.all_eq_true]
  constructor <;>
    · intro kv hkv
      have := (List.mem_filter.mp hkv).2
      simpa using this

mutual

theorem transformArgs_of_funcFree (rid : Int) (v : JSValue) (st : Registry)
    (h : funcFree v = true) : transformArgs rid v st = (v, st) := by
  cases v with
  | fn f => simp [funcFree] at h
  | proxy p => simp [funcFree] at h
  | arr elems =>
      have h' : funcFreeList elems = true := by simpa [funcFree] using h
      have ih := transformArgsList_of_funcFree rid elems st h'
      simp [transformArgs, ih]
  | obj fields =>
      have h' : funcFreeFields fields = true := by simpa [funcFree] using h
      have ih := transformArgsFields_of_funcFree rid fields st h'
      simp [transformArgs, ih]
  | num n => rfl
  | str s => rfl
  | bool b => rfl
  | null => rfl
  | undef => rfl
  | buffer b => rfl
  | view b => rfl

theorem transformArgsList_of_funcFree (rid : Int) (elems : JSList) (st : Registry)
    (h : funcFreeList elems = true) :
    transformArgsList rid elems st = (elems, st) := by
  cases elems with
  | nil => rfl
  | cons hd tl =>
      rw [funcFreeList, Bool.and_eq_true] at h
      have ih1 := transformArgs_of_funcFree rid hd st h.1
      have ih2 := transformArgsList_of_funcFree rid tl st h.2
      simp [transformArgsList, ih1, ih2]

theorem transformArgsFields_of_funcFree (rid : Int) (fields : JSFields) (st : Registry)
    (h : funcFreeFields fields = true) :
    transformArgsFields rid fields st = (fields, st) := by
  cases fields with
  | nil => rfl
  | cons k v tl =>
      rw [funcFreeFields, Bool.and_eq_true] at h
      have ih1 := transformArgs_of_funcFree rid v st h.1
      have ih2 := transformArgsFields_of_funcFree rid tl st h.2
      simp [transformArgsFields, ih1, ih2]

end

mutual

theorem resolveArgs_of_placeholderFree (rid : Int) (v : JSValue) (st : Registry)
    (h : placeholderFree v = true) : resolveArgs rid v st = (v, st) := by
  cases v with
  | arr elems =>
      have h' : placeholderFreeList elems = true := by simpa [placeholderFree] using h
      have ih := resolveArgsList_of_placeholderFree rid elems st h'
      simp [resolveArgs, ih]
  | obj fields =>
      rw [placeholderFree, Bool.and_eq_true] at h
      have ih := resolveArgsFields_of_placeholderFree rid fields st h.2
      have hk : fieldsHasKey FUNCTION_PLACEHOLDER fields = false := by
        simpa using h.1
      simp [resolveArgs, hk, ih]
  | num n => rfl
  | str s => rfl
  | bool b => rfl
  | null => rfl
  | undef => rfl
  | buffer b => rfl
  | view b => rfl
  | fn f => rfl
  | proxy p => rfl

theorem resolveArgsList_of_placeholderFree (rid : Int) (elems : JSList)
    (st : Registry) (h : placeholderFreeList elems = true) :
    resolveArgsList rid elems st = (elems, st) := by
  cases elems with
  | nil => rfl
  | cons hd tl =>
      rw [placeholderFreeList, Bool.and_eq_true] at h
      have ih1 := resolveArgs_of_placeholderFree rid hd st h.1
      have ih2 := resolveArgsList_of_placeholderFree rid tl st h.2
      simp [resolveArgsList, ih1, ih2]

theorem resolveArgsFields_of_placeholderFree (rid : Int) (fields : JSFields)
    (st : Registry) (h : placeholderFreeFields fields = true) :
    resolveArgsFields rid fields st = (fields, st) := by
  cases fields with
  | nil => rfl
  | cons k v tl =>
      rw [placeholderFreeFields, Bool.and_eq_true] at h
      have ih1 := resolveArgs_of_placeholderFree rid v st h.1
      have ih2 := resolveArgsFields_of_placeholderFree rid tl st h.2
      simp [resolveArgsFields, ih1, ih2]

end

mutual

theorem transformArgs_callbacks_ext (rid : Int) (v : JSValue) (st : Registry) :
    ∃ ext, (transformArgs rid v st).2.callbacks = st.callbacks ++ ext
      ∧ (funcFree v = false → ext ≠ [])
      ∧ ∀ kv ∈ ext, strStartsWith kv.1 (requestKeyHead rid) = true := by
  cases v with
  | fn f =>
      refine ⟨[(requestKeyHead rid ++ tokenString st.nextToken, .fn f)], ?_, ?_, ?_⟩
      · simp [transformArgs, registerCallback]
      · intro _ hc; cases hc
      · intro kv hkv
        rw [List.mem_singleton] at hkv
        subst hkv
        exact strStartsWith_append _ _
  | proxy p =>
      refine ⟨[(requestKeyHead rid ++ tokenString st.nextToken, .proxy p)], ?_, ?_, ?_⟩
      · simp [transformArgs, registerCallback]
      · intro _ hc; cases hc
      · intro kv hkv
        rw [List.mem_singleton] at hkv
        subst hkv
        exact strStartsWith_append _ _
  | arr elems =>
      obtain ⟨ext, he, hne, hp⟩ := transformArgsList_callbacks_ext rid elems st
      rcases hL : transformArgsList rid elems st with ⟨es', st'⟩
      rw [hL] at he
      replace he : st'.callbacks = st.callbacks ++ ext := he
      refine ⟨ext, ?_, ?_, hp⟩
      · simp [transformArgs, hL, he]
      · intro hff
        exact hne (by simpa [funcFree] using hff)
  | obj fields =>
      obtain ⟨ext, he, hne, hp⟩ := transformArgsFields_callbacks_ext rid fields st
      rcases hL : transformArgsFields rid fields st with ⟨fs', st'⟩
      rw [hL] at he
      replace he : st'.callbacks = st.callbacks ++ ext := he
      refine ⟨ext, ?_, ?_, hp⟩
      · simp [transformArgs, hL, he]
      · intro hff
        exact hne (by simpa [funcFree] using hff)
  | num n => exact ⟨[], by simp [transformArgs], by simp [funcFree], by simp⟩
  | str s => exact ⟨[], by simp [transformArgs], by simp [funcFree], by simp⟩
  | bool b => exact ⟨[], by simp [transformArgs], by simp [funcFree], by simp⟩
  | null => exact ⟨[], by simp [transformArgs], by simp [funcFree], by simp⟩
  | undef => exact ⟨[], by simp [transformArgs], by simp [funcFree], by simp⟩
  | buffer b => exact ⟨[], by simp [transformArgs], by simp [funcFree], by simp⟩
  | view b => exact ⟨[], by simp [transformArgs], by simp [funcFree], by simp⟩

theorem transformArgsList_callbacks_ext (rid : Int) (elems : JSList) (st : Registry) :
    ∃ ext, (transformArgsList rid elems st).2.callbacks = st.callbacks ++ ext
      ∧ (funcFreeList elems = false → ext ≠ [])
      ∧ ∀ kv ∈ ext, strStartsWith kv.1 (requestKeyHead rid) = true := by
  cases elems with
  | nil => exact ⟨[], by simp [transformArgsList], by simp [funcFreeList], by simp⟩
  | cons hd tl =>
      obtain ⟨ext1, he1, hne1, hp1⟩ := transformArgs_callbacks_ext rid hd st
      rcases h1 : transformArgs rid hd st with ⟨hd', st1⟩
      rw [h1] at he1
      replace he1 : st1.callbacks = st.callbacks ++ ext1 := he1
      obtain ⟨ext2, he2, hne2, hp2⟩ := transformArgsList_callbacks_ext rid tl st1
      rcases h2 : transformArgsList rid tl st1 with ⟨tl', st2⟩
      rw [h2] at he2
      replace he2 : st2.callbacks = st1.callbacks ++ ext2 := he2
      refine ⟨ext1 ++ ext2, ?_, ?_, ?_⟩
      · simp [transformArgsList, h1, h2, he2, he1]
      · intro hff
        intro hc
        rw [List.append_eq_nil] at hc
        cases hhd : funcFree hd with
        | false => exact hne1 hhd hc.1
        | true =>
            have htl : funcFreeList tl = false := by
              simpa [funcFreeList, hhd] using hff
            exact hne2 htl hc.2
      · intro kv hkv
        rcases List.mem_append.mp hkv with h | h
        · exact hp1 kv h
        · exact hp2 kv h

theorem transformArgsFields_callbacks_ext (rid : Int) (fields : JSFields) (st : Registry) :
    ∃ ext, (transformArgsFields rid fields st).2.callbacks = st.callbacks ++ ext
      ∧ (funcFreeFields fields = false → ext ≠ [])
      ∧ ∀ kv ∈ ext, strStartsWith kv.1 (requestKeyHead rid) = true := by
  cases fields with
  | nil => exact ⟨[], by simp [transformArgsFields], by simp [funcFreeFields], by simp⟩
  | cons k v tl =>
      obtain ⟨ext1, he1, hne1, hp1⟩ := transformArgs_callbacks_ext rid v st
      rcases h1 : transformArgs rid v st with ⟨v', st1⟩
      rw [h1] at he1
      replace he1 : st1.callbacks = st.callbacks ++ ext1 := he1
      obtain ⟨ext2, he2, hne2, hp2⟩ := transformArgsFields_callbacks_ext rid tl st1
      rcases h2 : transformArgsFields rid tl st1 with ⟨tl', st2⟩
      rw [h2] at he2
      replace he2 : st2.callbacks = st1.callbacks ++ ext2 := he2
      refine ⟨ext1 ++ ext2, ?_, ?_, ?_⟩
      · simp [transformArgsFields, h1, h2, he2, he1]
      · intro hff
        intro hc
        rw [List.append_eq_nil] at hc
        cases hhd : funcFree v with
        | false => exact hne1 hhd hc.1
        | true =>
            have htl : funcFreeFields tl = false := by
              simpa [funcFreeFields, hhd] using hff
            exact hne2 htl hc.2
      · intro kv hkv
        rcases List.mem_append.mp hkv with h | h
        · exact hp1 kv h
        · exact hp2 kv h

end

theorem handleCallbackCall_no_ready
    (sem : JSValue → JSValue → Except JSValue JSValue) (logMsg : String)
    (rid : Int) (payload : Option PayloadV) (st : Registry) :
    Action.post readySentinel ∉ (handleCallbackCall sem logMsg rid payload st).2 := by
  rcases hcb : lookupCallable st.callbacks
      ((payload.bind (fun p => p.callbackId)).getD .undef) with _ | fv
  · simp [handleCallbackCall, hcb]
  · rcases hres : resolveArgs rid ((payload.bind (fun p => p.args)).getD .undef) st
      with ⟨resolved, st1⟩
    rcases hsem : sem fv resolved with e | r
    · simp [handleCallbackCall, hcb, hres, hsem]
    · rcases htr : transformArgs rid r st1 with ⟨tres, st2⟩
      simp [handleCallbackCall, hcb, hres, hsem, htr, callbackResultMsg,
            readySentinel]

theorem workerHandler_no_ready
    (procs : String → Option (JSValue → Except JSValue JSValue))
    (sem : JSValue → JSValue → Except JSValue JSValue)
    (msg : WireMsg) (st : Registry) :
    Action.post readySentinel ∉ (workerHandler procs sem msg st).2 := by
  cases msg with
  | raw v => simp [workerHandler]
  | tagged ty payload =>
      by_cases hf : ty = "function"
      · subst hf
        rcases hid : payload.bind (fun p => p.id) with _ | pid
        · simp [workerHandler, hid]
        · cases pid with
          | num id =>
              rcases hnm : payload.bind (fun p => p.name) with _ | name
              · simp [workerHandler, hid, hnm]
              · rcases hpr : procs name with _ | proc
                · simp [workerHandler, hid, hnm, hpr]
                · rcases hres : resolveArgs id
                    ((payload.bind (fun p => p.args)).getD .undef) st
                    with ⟨resolvedArgs, st1⟩
                  rcases hout : proc resolvedArgs with e | r
                  · simp [workerHandler, hid, hnm, hpr, hres, hout, errorMsg,
                          readySentinel]
                  · rcases htr : transformArgs id r st1 with ⟨tres, st2⟩
                    simp [workerHandler, hid, hnm, hpr, hres, hout, htr,
                          resultMsg, readySentinel]
          | str s => simp [workerHandler, hid]
          | bool b => simp [workerHandler, hid]
          | null => simp [workerHandler, hid]
          | undef => simp [workerHandler, hid]
          | buffer b => simp [workerHandler, hid]
          | view b => simp [workerHandler, hid]
          | fn f => simp [workerHandler, hid]
          | proxy p => simp [workerHandler, hid]
          | arr a => simp [workerHandler, hid]
          | obj o => simp [workerHandler, hid]
      · by_cases hc : ty = "callback_call"
        · subst hc
          rcases hid : payload.bind (fun p => p.id) with _ | pid
          · simp [workerHandler, hid]
          · cases pid with
            | num id =>
                have hh := handleCallbackCall_no_ready sem
                  "[worker-lib] Worker-side callback failed:" id payload st
                simpa [workerHandler, hid] using hh
            | str s => simp [workerHandler, hid]
            | bool b => simp [workerHandler, hid]
            | null => simp [workerHandler, hid]
            | undef => simp [workerHandler, hid]
            | buffer b => simp [workerHandler, hid]
            | view b => simp [workerHandler, hid]
            | fn f => simp [workerHandler, hid]
            | proxy p => simp [workerHandler, hid]
            | arr a => simp [workerHandler, hid]
            | obj o => simp [workerHandler, hid]
        · simp [workerHandler, hf, hc]

theorem initRunFrom_halted (i : Nat) (r : Option Nat) (msgs : List WireMsg) :
    initRunFrom i ⟨false, r⟩ msgs = ⟨false, r⟩ := by
  induction msgs generalizing i with
  | nil => rfl
  | cons m rest ih =>
      rw [initRunFrom, initHandlerStep]
      simpa using ih (i + 1)

theorem workerHandler_ignores_unknown_token
    (procs : String → Option (JSValue → Except JSValue JSValue))
    (sem : JSValue → JSValue → Except JSValue JSValue)
    (rid : Int) (cbid cid : String) (cargs : JSValue) (S : Registry)
    (hlk : S.callbacks.lookup cbid = none) :
    workerHandler procs sem (callbackCallMsg rid (.str cbid) cid cargs) S
      = (S, []) := by
  simp [workerHandler, callbackCallMsg, handleCallbackCall, lookupCallable, hlk]

theorem createProxy_idem (rid : Int) (t : String) (st : Registry) :
    createProxy rid t (createProxy rid t st).2
      = ((createProxy rid t st).1, (createProxy rid t st).2) := by
  rcases hl : st.callbackProxies.lookup (requestKeyHead rid ++ t) with _ | p
  · have hsnd := lookup_append_of_none st.callbackProxies
      [(requestKeyHead rid ++ t, st.nextProxy)] (requestKeyHead rid ++ t) hl
    simp only [List.lookup, beq_self_eq_true, if_pos] at hsnd
    simp [createProxy, hl, hsnd]
  · simp [createProxy, hl]

/-- C1 (counterexample to the claim as stated): the record
`{"__worker_lib_function__": "x"}` is built only from plain records and
strings and contains no callables, yet unmarshaling its marshaled form does
not yield a structurally equal value — `resolveArgs` treats the sentinel
key as a placeholder and returns an invocation proxy. -/
theorem C1_counterexample :
    funcFree (JSValue.obj (.cons FUNCTION_PLACEHOLDER (.str "x") .nil)) = true
    ∧ (resolveArgs 0
        (transformArgs 0
          (JSValue.obj (.cons FUNCTION_PLACEHOLDER (.str "x") .nil))
          Registry.empty).1
        Registry.empty).1
      ≠ JSValue.obj (.cons FUNCTION_PLACEHOLDER (.str "x") .nil) := by
  decide

/-- C1 (amended): for every value built only from numbers, strings,
booleans, null, undefined, plain records, sequences, raw buffers and typed
views — containing no callables and no record carrying the sentinel key
`__worker_lib_function__` — unmarshaling (`resolveArgs`) the result of
marshaling (`transformArgs`) that value under any request id, whatever the
registry state of either side, yields a structurally equal value. -/
theorem C1_roundtrip_identity (rid : Int) (v : JSValue) (st st' : Registry)
    (hf : funcFree v = true) (hp : placeholderFree v = true) :
    (resolveArgs rid (transformArgs rid v st).1 st').1 = v := by
  rw [transformArgs_of_funcFree rid v st hf]
  simp [resolveArgs_of_placeholderFree rid v st' hp]

/-- Witness for C1: the round trip is the identity on a concrete nested
tree of records, arrays, scalars, a raw buffer and a typed view. -/
theorem C1_roundtrip_identity_witness :
    funcFree sampleTree = true ∧ placeholderFree sampleTree = true
    ∧ (resolveArgs 5 (transformArgs 5 sampleTree Registry.empty).1
        Registry.empty).1 = sampleTree :=
  ⟨by decide, by decide,
   C1_roundtrip_identity 5 sampleTree Registry.empty Registry.empty
     (by decide) (by decide)⟩

/-- C3: within one request, repeated unmarshaling of the same placeholder
token returns the identity-equal proxy and leaves the registry unchanged,
because `createProxy` memoizes the proxy under `"{requestId}:{token}"` and
returns the stored value on every later call with the same pair. -/
theorem C3_proxy_memoized (rid : Int) (t : String) (st : Registry) :
    (resolveArgs rid (JSValue.obj (.cons FUNCTION_PLACEHOLDER (.str t) .nil))
        (resolveArgs rid
          (JSValue.obj (.cons FUNCTION_PLACEHOLDER (.str t) .nil)) st).2)
      = ((resolveArgs rid
            (JSValue.obj (.cons FUNCTION_PLACEHOLDER (.str t) .nil)) st).1,
         (resolveArgs rid
            (JSValue.obj (.cons FUNCTION_PLACEHOLDER (.str t) .nil)) st).2)
    ∧ createProxy rid t (createProxy rid t st).2
        = ((createProxy rid t st).1, (createProxy rid t st).2) := by
  refine ⟨?_, createProxy_idem rid t st⟩
  have hmemo := createProxy_idem rid t st
  rcases h1 : createProxy rid t st with ⟨p1, st1⟩
  rw [h1] at hmemo
  simp only [Prod.fst, Prod.snd] at hmemo
  simp [resolveArgs, fieldsHasKey, fieldsGet, jsString, h1, hmemo]

/-- C4: for every request handler installed by `exec` for request id `R`,
every inbound message whose `payload?.id` is not strictly equal to `R` —
including non-object data and messages with no payload or no id — is
ignored: the handler returns with the registry unchanged and no observable
effect. -/
theorem C4_mismatched_id_ignored
    (sem : JSValue → JSValue → Except JSValue JSValue)
    (rid : Int) (msg : WireMsg) (st : Registry)
    (h : wireMsgPayloadId msg ≠ some (.num rid)) :
    messageHandler sem rid msg st = (st, []) := by
  cases msg with
  | raw v => rfl
  | tagged ty payload =>
      have h' : ¬(payload.bind (fun p => p.id) = some (JSValue.num rid)) := by
        simpa [wireMsgPayloadId] using h
      simp [messageHandler, h']

/-- Witness for C4: a `result` message for request 1 and a `result` message
with no payload at all are both ignored by request 0's handler. -/
theorem C4_mismatched_id_ignored_witness :
    wireMsgPayloadId (resultMsg 1 .null) ≠ some (.num 0)
    ∧ messageHandler (fun _ _ => .ok .undef) 0 (resultMsg 1 .null)
        Registry.empty = (Registry.empty, [])
    ∧ messageHandler (fun _ _ => .ok .undef) 0 (.tagged "result" none)
        Registry.empty = (Registry.empty, []) :=
  ⟨by decide,
   C4_mismatched_id_ignored _ 0 (resultMsg 1 .null) Registry.empty (by decide),
   C4_mismatched_id_ignored _ 0 (.tagged "result" none) Registry.empty
     (by decide)⟩

/-- C8: after `setLimit(n)` the slot array has exactly `n` slots, each with
no endpoint and no resolver, and every endpoint present before the call has
been terminated. -/
theorem C8_setLimit_resets (n : Nat) (st : PoolState) :
    (setLimit n st).workers.length = n
    ∧ (∀ s ∈ (setLimit n st).workers, s = Slot.empty)
    ∧ ∀ w s, s ∈ st.workers → s.worker = some w →
        w ∈ (setLimit n st).terminated := by
  refine ⟨by simp [setLimit], ?_, ?_⟩
  · intro s hs
    exact List.eq_of_mem_replicate hs
  · intro w s hs hw
    simp only [setLimit, List.mem_append]
    right
    exact List.mem_filterMap.mpr ⟨s, hs, hw⟩

/-- Witness for C8: resizing a pool holding endpoint 7 to two slots yields
two slots and terminates endpoint 7. -/
theorem C8_setLimit_resets_witness :
    (setLimit 2 ⟨[⟨some 7, some 1⟩], []⟩).workers.length = 2
    ∧ 7 ∈ (setLimit 2 ⟨[⟨some 7, some 1⟩], []⟩).terminated :=
  ⟨(C8_setLimit_resets 2 ⟨[⟨some 7, some 1⟩], []⟩).1,
   (C8_setLimit_resets 2 ⟨[⟨some 7, some 1⟩], []⟩).2.2 7 ⟨some 7, some 1⟩
     (by simp) rfl⟩

/-- C9: placeholder detection checks only the presence of the sentinel key:
every plain record containing `__worker_lib_function__` — whatever the
other fields and whatever the value under the key — unmarshals to a
callback proxy instead of the record, so (when callable-free) such records
do not survive a marshal-unmarshal round trip. -/
theorem C9_sentinel_key_hijacks_record (rid : Int) (fields : JSFields)
    (st st' : Registry)
    (hk : fieldsHasKey FUNCTION_PLACEHOLDER fields = true) :
    (∃ p, (resolveArgs rid (.obj fields) st).1 = .proxy p)
    ∧ (funcFree (.obj fields) = true →
        (resolveArgs rid (transformArgs rid (.obj fields) st').1 st).1
          ≠ .obj fields) := by
  have hres : (resolveArgs rid (.obj fields) st).1
      = .proxy (createProxy rid
          (jsString ((fieldsGet FUNCTION_PLACEHOLDER fields).getD .undef)) st).1 := by
    rcases hcp : createProxy rid
        (jsString ((fieldsGet FUNCTION_PLACEHOLDER fields).getD .undef)) st
      with ⟨p, st1⟩
    simp [resolveArgs, hk, hcp]
  refine ⟨⟨_, hres⟩, ?_⟩
  intro hf
  rw [transformArgs_of_funcFree rid (.obj fields) st' hf]
  simp only [Prod.fst]
  rw [hres]
  simp

/-- Witness for C9: a user record carrying the sentinel key with a numeric
value and an extra field becomes a proxy, and does not round-trip. -/
theorem C9_sentinel_key_hijacks_record_witness :
    fieldsHasKey FUNCTION_PLACEHOLDER
      (.cons FUNCTION_PLACEHOLDER (.num 5) (.cons "a" (.num 1) .nil)) = true
    ∧ (∃ p, (resolveArgs 0
        (JSValue.obj (.cons FUNCTION_PLACEHOLDER (.num 5)
          (.cons "a" (.num 1) .nil))) Registry.empty).1 = .proxy p)
    ∧ (resolveArgs 0
        (transformArgs 0
          (JSValue.obj (.cons FUNCTION_PLACEHOLDER (.num 5)
            (.cons "a" (.num 1) .nil))) Registry.empty).1 Registry.empty).1
      ≠ JSValue.obj (.cons FUNCTION_PLACEHOLDER (.num 5)
          (.cons "a" (.num 1) .nil)) :=
  ⟨by decide,
   (C9_sentinel_key_hijacks_record 0
     (.cons FUNCTION_PLACEHOLDER (.num 5) (.cons "a" (.num 1) .nil))
     Registry.empty Registry.empty (by decide)).1,
   (C9_sentinel_key_hijacks_record 0
     (.cons FUNCTION_PLACEHOLDER (.num 5) (.cons "a" (.num 1) .nil))
     Registry.empty Registry.empty (by decide)).2 (by decide)⟩

/-- C2: when the main side's per-request handler observes the terminal
`result` or `error` message for request `r`, every callback entry and every
proxy entry whose composite key begins with `"{r}:"` is removed (the
`clearRegistry` effect precedes `resolveP`/`rejectP` in the handler's
effect trace, so the caller's promise settles against the cleared
registry); and the worker side cleared its own registry for `r` when it
emitted the terminal message, so afterwards neither side's registry holds a
key of `r`. -/
theorem C2_terminal_clears_registry
    (sem psem : JSValue → JSValue → Except JSValue JSValue)
    (procs : String → Option (JSValue → Except JSValue JSValue))
    (rid : Int) (res errv args : JSValue) (st wst : Registry) (name : String)
    (proc : JSValue → Except JSValue JSValue)
    (hproc : procs name = some proc) :
    (noRequestKeys rid (messageHandler sem rid (resultMsg rid res) st).1 = true
      ∧ (messageHandler sem rid (resultMsg rid res) st).2
          = [.removeListener, .clearRegistry rid,
             .resolveP (resolveArgs rid res st).1])
    ∧ (noRequestKeys rid (messageHandler sem rid (errorMsg rid errv) st).1 = true
      ∧ (messageHandler sem rid (errorMsg rid errv) st).2
          = [.removeListener, .clearRegistry rid, .rejectP errv])
    ∧ noRequestKeys rid
        (workerHandler procs psem (functionMsg rid name args) wst).1 = true := by
  have hres : messageHandler sem rid (resultMsg rid res) st
      = (clearCallbacks rid (resolveArgs rid res st).2,
         [.removeListener, .clearRegistry rid,
          .resolveP (resolveArgs rid res st).1]) := by
    simp [messageHandler, resultMsg]
  have herr : messageHandler sem rid (errorMsg rid errv) st
      = (clearCallbacks rid st,
         [.removeListener, .clearRegistry rid, .rejectP errv]) := by
    simp [messageHandler, errorMsg]
  refine ⟨⟨?_, ?_⟩, ⟨?_, ?_⟩, ?_⟩
  · rw [hres]; exact clearCallbacks_noRequestKeys rid _
  · rw [hres]
  · rw [herr]; exact clearCallbacks_noRequestKeys rid _
  · rw [herr]
  · rcases hargs : resolveArgs rid args wst with ⟨rargs, st1⟩
    rcases hout : proc rargs with e | r
    · have hw : (workerHandler procs psem (functionMsg rid name args) wst).1
          = clearCallbacks rid st1 := by
        simp [workerHandler, functionMsg, hproc, hargs, hout]
      rw [hw]; exact clearCallbacks_noRequestKeys rid _
    · rcases htr : transformArgs rid r st1 with ⟨tres, st2⟩
      have hw : (workerHandler procs psem (functionMsg rid name args) wst).1
          = clearCallbacks rid st2 := by
        simp [workerHandler, functionMsg, hproc, hargs, hout, htr]
      rw [hw]; exact clearCallbacks_noRequestKeys rid _

/-- Witness for C2: a terminal `result` for request 3 leaves a registry
with no `"3:"` keys on the main side, and a completed procedure call leaves
none on the worker side. -/
theorem C2_terminal_clears_registry_witness :
    noRequestKeys 3 (messageHandler (fun _ _ => .ok .undef) 3
      (resultMsg 3 .null) ⟨[("3:t0", .fn 0)], [("3:p", 0)], 1, 1⟩).1 = true
    ∧ noRequestKeys 3 (workerHandler
        (fun n => if n = "f" then some (fun v => Except.ok v) else none)
        (fun _ _ => .ok .undef) (functionMsg 3 "f" .null) Registry.empty).1
      = true :=
  ⟨(C2_terminal_clears_registry (fun _ _ => .ok .undef) (fun _ _ => .ok .undef)
      (fun n => if n = "f" then some (fun v => Except.ok v) else none)
      3 .null .null .null ⟨[("3:t0", .fn 0)], [("3:p", 0)], 1, 1⟩
      Registry.empty "f" (fun v => Except.ok v) (by simp)).1.1,
   (C2_terminal_clears_registry (fun _ _ => .ok .undef) (fun _ _ => .ok .undef)
      (fun n => if n = "f" then some (fun v => Except.ok v) else none)
      3 .null .null .null ⟨[("3:t0", .fn 0)], [("3:p", 0)], 1, 1⟩
      Registry.empty "f" (fun v => Except.ok v) (by simp)).2.2⟩

/-- C5: when a worker-side procedure raises, the worker posts an `error`
message whose error field is `String(error)` for the owning request id and
clears that request's registry entries; the main-side handler for that
request then rejects the caller's promise with exactly the carried
string. -/
theorem C5_procedure_failure_stringified
    (procs : String → Option (JSValue → Except JSValue JSValue))
    (sem msem : JSValue → JSValue → Except JSValue JSValue)
    (rid : Int) (name : String) (proc : JSValue → Except JSValue JSValue)
    (args e : JSValue) (wst mst : Registry)
    (hproc : procs name = some proc)
    (hthrow : proc (resolveArgs rid args wst).1 = .error e) :
    workerHandler procs sem (functionMsg rid name args) wst
      = (clearCallbacks rid (resolveArgs rid args wst).2,
         [.post (errorMsg rid (.str (jsString e))), .clearRegistry rid])
    ∧ (messageHandler msem rid (errorMsg rid (.str (jsString e))) mst).2
      = [.removeListener, .clearRegistry rid, .rejectP (.str (jsString e))] := by
  rcases hargs : resolveArgs rid args wst with ⟨rargs, st1⟩
  rw [hargs] at hthrow
  constructor
  · simp [workerHandler, functionMsg, hproc, hargs, hthrow]
  · simp [messageHandler, errorMsg]

/-- Witness for C5: a procedure that throws the string `"Worker error"`
yields an `error` post carrying `"Worker error"` and a main-side rejection
with the same string. -/
theorem C5_procedure_failure_stringified_witness :
    workerHandler
      (fun n => if n = "throwError"
        then some (fun _ => Except.error (JSValue.str "Worker error"))
        else none)
      (fun _ _ => .ok .undef) (functionMsg 3 "throwError" .null) Registry.empty
      = (clearCallbacks 3 (resolveArgs 3 .null Registry.empty).2,
         [.post (errorMsg 3 (.str (jsString (.str "Worker error")))),
          .clearRegistry 3])
    ∧ (messageHandler (fun _ _ => .ok .undef) 3
        (errorMsg 3 (.str (jsString (.str "Worker error")))) Registry.empty).2
      = [.removeListener, .clearRegistry 3,
         .rejectP (.str (jsString (.str "Worker error")))] :=
  C5_procedure_failure_stringified
    (fun n => if n = "throwError"
      then some (fun _ => Except.error (JSValue.str "Worker error"))
      else none)
    (fun _ _ => .ok .undef) (fun _ _ => .ok .undef) 3 "throwError"
    (fun _ => Except.error (JSValue.str "Worker error")) .null
    (.str "Worker error") Registry.empty Registry.empty (by simp) rfl

/-- C6: when the callable looked up for a `callback_call` raises (on either
side — the two sides differ only in the log text), the failure is written
to the diagnostic sink, no `callback_result` is posted (the effect trace is
exactly the log entry), and the registry is left in its pre-invocation
state — unchanged entirely when the call's arguments carried no
placeholder. -/
theorem C6_callback_failure_logged
    (sem : JSValue → JSValue → Except JSValue JSValue)
    (procs : String → Option (JSValue → Except JSValue JSValue))
    (rid : Int) (payload : Option PayloadV) (st : Registry) (fv e : JSValue)
    (hid : payload.bind (fun p => p.id) = some (.num rid))
    (hfv : lookupCallable st.callbacks
      ((payload.bind (fun p => p.callbackId)).getD .undef) = some fv)
    (hthrow : sem fv (resolveArgs rid
      ((payload.bind (fun p => p.args)).getD .undef) st).1 = .error e) :
    messageHandler sem rid (.tagged "callback_call" payload) st
      = ((resolveArgs rid ((payload.bind (fun p => p.args)).getD .undef) st).2,
         [.logError "[worker-lib] Callback execution failed:" e])
    ∧ workerHandler procs sem (.tagged "callback_call" payload) st
      = ((resolveArgs rid ((payload.bind (fun p => p.args)).getD .undef) st).2,
         [.logError "[worker-lib] Worker-side callback failed:" e])
    ∧ (placeholderFree ((payload.bind (fun p => p.args)).getD .undef) = true →
        (resolveArgs rid
          ((payload.bind (fun p => p.args)).getD .undef) st).2 = st) := by
  rcases hargs : resolveArgs rid
      ((payload.bind (fun p => p.args)).getD .undef) st with ⟨rargs, st1⟩
  rw [hargs] at hthrow
  have hcc : ∀ lg, handleCallbackCall sem lg rid payload st
      = (st1, [.logError lg e]) := by
    intro lg
    simp [handleCallbackCall, hfv, hargs, hthrow]
  refine ⟨?_, ?_, ?_⟩
  · simp [messageHandler, hid, hcc]
  · simp [workerHandler, hid, hcc]
  · intro hpf
    have hpfr := resolveArgs_of_placeholderFree rid
      ((payload.bind (fun p => p.args)).getD .undef) st hpf
    rw [hargs] at hpfr
    simpa using congrArg Prod.snd hpfr

/-- Witness for C6: a registered callback that raises `"boom"` produces
exactly one log entry on each side and leaves the registry untouched. -/
theorem C6_callback_failure_logged_witness :
    messageHandler (fun _ _ => Except.error (JSValue.str "boom")) 1
      (.tagged "callback_call"
        (some ⟨some (.num 1), none, some (.arr .nil), none, none,
               some (.str "1:cb"), some (.str "c1")⟩))
      ⟨[("1:cb", .fn 0)], [], 0, 0⟩
      = (⟨[("1:cb", .fn 0)], [], 0, 0⟩,
         [.logError "[worker-lib] Callback execution failed:" (.str "boom")]) :=
  by
    have h := C6_callback_failure_logged
      (fun _ _ => Except.error (JSValue.str "boom"))
      (fun _ => none) 1
      (some ⟨some (.num 1), none, some (.arr .nil), none, none,
             some (.str "1:cb"), some (.str "c1")⟩)
      ⟨[("1:cb", .fn 0)], [], 0, 0⟩ (.fn 0) (.str "boom")
      (by decide) (by decide) rfl
    rw [h.1]
    rw [h.2.2 (by decide)]

/-- C7: the worker's setup installs the listener and then posts exactly one
ready sentinel before any other outbound traffic (the listener itself never
posts the sentinel), and both main-side worker-construction paths complete
exactly on observing that first sentinel, ignoring all subsequent
messages. -/
theorem C7_ready_handshake (rest : List WireMsg)
    (procs : String → Option (JSValue → Except JSValue JSValue))
    (sem : JSValue → JSValue → Except JSValue JSValue)
    (msg : WireMsg) (st : Registry) :
    initWorkerSetup = [Action.addListener, Action.post readySentinel]
    ∧ Action.post readySentinel ∉ (workerHandler procs sem msg st).2
    ∧ initRun (readySentinel :: rest) = ⟨false, some 0⟩
    ∧ nodeInitResolvedAt (readySentinel :: rest) = some 0 := by
  refine ⟨rfl, workerHandler_no_ready procs sem msg st, ?_, rfl⟩
  rw [initRun, initRunFrom, initHandlerStep]
  simpa using initRunFrom_halted 1 (some 0) rest

/-- C10: a callable embedded in a worker procedure's return value is
registered during result marshaling (the callbacks map strictly grows), but
`clearCallbacks` removes it before the handler finishes; the main-side
proxy for it posts a `callback_call` carrying the captured composite token,
and the worker silently ignores any `callback_call` whose token belongs to
the finished request — no message, no log, no state change — so the
invocation's promise can never settle. -/
theorem C10_result_callback_unreachable
    (procs : String → Option (JSValue → Except JSValue JSValue))
    (sem : JSValue → JSValue → Except JSValue JSValue)
    (rid : Int) (name : String) (proc : JSValue → Except JSValue JSValue)
    (args res : JSValue) (wst : Registry)
    (hproc : procs name = some proc)
    (hok : proc (resolveArgs rid args wst).1 = .ok res)
    (hfn : funcFree res = false) :
    (transformArgs rid res (resolveArgs rid args wst).2).2.callbacks.length
        > (resolveArgs rid args wst).2.callbacks.length
    ∧ noRequestKeys rid
        (workerHandler procs sem (functionMsg rid name args) wst).1 = true
    ∧ (∀ cbid tok pargs (mst : Registry),
        (invokeProxy rid cbid tok pargs mst).2
          = [Action.addListener,
             Action.post (callbackCallMsg rid (.str cbid) (tokenString tok)
               (transformArgs rid (.arr pargs) mst).1)])
    ∧ ∀ cbid cid cargs,
        strStartsWith cbid (requestKeyHead rid) = true →
        workerHandler procs sem (callbackCallMsg rid (.str cbid) cid cargs)
          (workerHandler procs sem (functionMsg rid name args) wst).1
        = ((workerHandler procs sem (functionMsg rid name args) wst).1, []) := by
  rcases hargs : resolveArgs rid args wst with ⟨rargs, st1⟩
  rw [hargs] at hok
  rcases htr : transformArgs rid res st1 with ⟨tres, st2⟩
  have hw : workerHandler procs sem (functionMsg rid name args) wst
      = (clearCallbacks rid st2,
         [.post (resultMsg rid tres), .clearRegistry rid]) := by
    simp [workerHandler, functionMsg, hproc, hargs, hok, htr]
  have hb : noRequestKeys rid
      (workerHandler procs sem (functionMsg rid name args) wst).1 = true := by
    rw [hw]
    exact clearCallbacks_noRequestKeys rid _
  refine ⟨?_, hb, ?_, ?_⟩
  · obtain ⟨ext, he, hne, _⟩ := transformArgs_callbacks_ext rid res st1
    rw [htr] at he
    replace he : st2.callbacks = st1.callbacks ++ ext := he
    have hpos : 0 < ext.length := List.length_pos.mpr (hne hfn)
    show st2.callbacks.length > st1.callbacks.length
    rw [he, List.length_append]
    omega
  · intro cbid tok pargs mst
    rcases htr2 : transformArgs rid (.arr pargs) mst with ⟨targs, mst1⟩
    simp [invokeProxy, htr2]
  · intro cbid cid cargs hpre
    have hnrk := hb
    rw [noRequestKeys, Bool.and_eq_true] at hnrk
    have hlk : (workerHandler procs sem
        (functionMsg rid name args) wst).1.callbacks.lookup cbid = none :=
      lookup_none_of_all_blocked _ _ _ hnrk.1 hpre
    exact workerHandler_ignores_unknown_token procs sem rid cbid cid cargs _ hlk

/-- Witness for C10: a procedure returning a bare callable; afterwards the
worker's registry holds no key of request 2 and a `callback_call` carrying
a request-2 token is ignored outright. -/
theorem C10_result_callback_unreachable_witness :
    noRequestKeys 2 (workerHandler
      (fun n => if n = "makeCb" then some (fun _ => Except.ok (JSValue.fn 0))
        else none)
      (fun _ _ => .ok .undef) (functionMsg 2 "makeCb" .null) Registry.empty).1
      = true
    ∧ workerHandler
        (fun n => if n = "makeCb" then some (fun _ => Except.ok (JSValue.fn 0))
          else none)
        (fun _ _ => .ok .undef) (callbackCallMsg 2 (.str "2:t0") "c" .null)
        (workerHandler
          (fun n => if n = "makeCb" then some (fun _ => Except.ok (JSValue.fn 0))
            else none)
          (fun _ _ => .ok .undef) (functionMsg 2 "makeCb" .null)
          Registry.empty).1
      = ((workerHandler
          (fun n => if n = "makeCb" then some (fun _ => Except.ok (JSValue.fn 0))
            else none)
          (fun _ _ => .ok .undef) (functionMsg 2 "makeCb" .null)
          Registry.empty).1, []) :=
  ⟨(C10_result_callback_unreachable
      (fun n => if n = "makeCb" then some (fun _ => Except.ok (JSValue.fn 0))
        else none)
      (fun _ _ => .ok .undef) 2 "makeCb" (fun _ => Except.ok (JSValue.fn 0))
      .null (.fn 0) Registry.empty (by simp) rfl (by decide)).2.1,
   (C10_result_callback_unreachable
      (fun n => if n = "makeCb" then some (fun _ => Except.ok (JSValue.fn 0))
        else none)
      (fun _ _ => .ok .undef) 2 "makeCb" (fun _ => Except.ok (JSValue.fn 0))
      .null (.fn 0) Registry.empty (by simp) rfl
      (by decide)).2.2.2 "2:t0" "c" .null (by decide)⟩

end WorkerLib
